import Mathlib

/-!
# podman-compose-go: the Podman command client

A shallow embedding of `podman_compose.go`.  Go strings are modelled as Lean
strings (sequences of Unicode characters), the effects of the program (writes to
standard output through `fmt.Println`, processes started through `os/exec`,
`time.Sleep`) are recorded in order in a trace carried by an explicit world
value, and the environment the program reads (what an external command does,
what the filesystem holds) is a field of that world.
-/

namespace PodmanCompose

/-! ## Go values -/

/-- Error values the program can hold.  `pathError` is the `*fs.PathError`
returned by `os.Stat`, `errorString` is a value built by `errors.New`,
`execError` is a failure of `cmd.Start` and `exitError` a failure reported by
`cmd.Wait`. -/
inductive GoError where
  | pathError (op : String) (path : String) (errno : Nat)
  | errorString (msg : String)
  | execError (name : String) (msg : String)
  | exitError (code : Nat)
  deriving DecidableEq, Repr

/-- Result of a Go call that may abort the goroutine with a run-time panic. -/
inductive Outcome (α : Type) where
  | ret (a : α)
  | panic (msg : String)
  deriving DecidableEq, Repr

/-- The `exec.Cmd` handle built by `exec.Command(name, args...)`. -/
structure Cmd where
  path : String
  args : List String
  deriving DecidableEq, Repr

/-- What one external process does once asked to start. -/
structure Process where
  startErr : Option GoError
  stdout : String
  waitErr : Option GoError
  deriving DecidableEq, Repr

/-- Observable effects, in the order the program performs them. -/
inductive Event where
  | println (s : String)
  | start (cmd : Cmd)
  | wait (cmd : Cmd)
  | sleep (d : Int)
  deriving DecidableEq, Repr

/-- Kind of a filesystem entry, as told by the type bits of its `fs.FileMode`. -/
inductive FileMode where
  | regular
  | dir
  | symlink
  | namedPipe
  | socket
  | device
  | charDevice
  | irregular
  deriving DecidableEq, Repr

/-- Filesystem state as the program reads it: `lookup` is the result of the
`stat` system call on a path (an errno on failure) and `abs` is the result of
`filepath.Abs`. -/
structure FileSystem where
  lookup : String → Except Nat FileMode
  abs : String → String × Option GoError

/-- The `ENOENT` errno. -/
def ENOENT : Nat := 2

/-- World: the trace of effects so far and the behaviour of external commands. -/
structure World where
  trace : List Event
  procs : String → List String → Process

/-- `type Podman struct`. -/
structure Podman where
  path : String
  dryRun : Bool
  deriving DecidableEq, Repr

/-- `type PodmanImage struct`. -/
structure PodmanImage where
  Name : String
  deriving DecidableEq, Repr

/-- `type PodmanPod struct`. -/
structure PodmanPod where
  Name : String
  Share : String
  deriving DecidableEq, Repr

/-- `type PodmanService struct`. -/
structure PodmanService where
  Name : String
  deriving DecidableEq, Repr

/-- `type PodmanContainer struct`. -/
structure PodmanContainer where
  Name : String
  Service : Option PodmanService
  deriving DecidableEq, Repr

/-! ## Library functions used by the client -/

/-- `strings.Join(elems, sep)`. -/
def Join : List String → String → String
  | [], _ => ""
  | [a], _ => a
  | a :: b :: rest, sep => a ++ sep ++ Join (b :: rest) sep

/-- Appends one event to the trace. -/
def World.emit (w : World) (e : Event) : World :=
  { w with trace := w.trace ++ [e] }

/-- `fmt.Println(s)`: one write of `s` and a newline to standard output. -/
def Println (s : String) (w : World) : World :=
  w.emit (Event.println s)

/-- `exec.Command(name, args...)`. -/
def Command (name : String) (args : List String) : Cmd :=
  { path := name, args := args }

/-- `bufio.Reader.ReadString(delim)` on the unread part of a stream: the data
through the first delimiter and the rest, or at the end of the stream the data
read so far with `io.EOF` (the flag is `true` when the error is non-nil). -/
def readString (delim : Char) : List Char → List Char × List Char × Bool
  | [] => ([], [], true)
  | c :: cs =>
    if c = delim then ([c], cs, false)
    else
      let r := readString delim cs
      (c :: r.1, r.2.1, r.2.2)

/-- The relay loop of `Run`:
`line, err := reader.ReadString(10); for err == nil { fmt.Println(line); line, err = reader.ReadString(10) }`. -/
def relayLoop (stream : List Char) (w : World) : World :=
  match h : readString (Char.ofNat 10) stream with
  | (line, rest, false) => relayLoop rest (Println (String.mk line) w)
  | (_, _, true) => w
termination_by stream.length
decreasing_by
  have key : ∀ s : List Char, (readString (Char.ofNat 10) s).2.2 = false →
      (readString (Char.ofNat 10) s).2.1.length < s.length := by
    intro s
    induction s with
    | nil => simp [readString]
    | cons c cs ih =>
      unfold readString
      by_cases hc : c = Char.ofNat 10
      · simp [hc]
      · simp only [hc, if_false]
        intro he
        have := ih he
        simp only [List.length_cons]
        omega
  have hk := key stream
  rw [h] at hk
  exact hk rfl

/-- `func (p *Podman) Output(args []string) (string, error)`. -/
def Output (p : Podman) (args : List String) (w : World) : (String × Option GoError) × World :=
  let w := Println ("podman cmd: " ++ p.path ++ " " ++ Join args " ") w
  let cmd := Command p.path args
  let pr := w.procs p.path args
  let w := w.emit (Event.start cmd)
  match pr.startErr with
  | some err => (("", some err), w)
  | none =>
    let w := w.emit (Event.wait cmd)
    match pr.waitErr with
    | some err => (("", some err), w)
    | none => ((pr.stdout, none), w)

/-- `func (p *Podman) Run(args []string, wait bool, sleep int) (*exec.Cmd, error)`. -/
def Run (p : Podman) (args : List String) (wait : Bool) (sleep : Int) (w : World) :
    (Option Cmd × Option GoError) × World :=
  let w := Println ("podman cmd: " ++ p.path ++ " " ++ Join args " ") w
  if p.dryRun then ((none, none), w)
  else
    let cmd := Command p.path args
    let pr := w.procs p.path args
    let w := w.emit (Event.start cmd)
    match pr.startErr with
    | some err => ((some cmd, some err), w)
    | none =>
      let w := relayLoop pr.stdout.data w
      let fin (w : World) : (Option Cmd × Option GoError) × World :=
        if sleep ≠ 0 then ((some cmd, none), w.emit (Event.sleep sleep))
        else ((some cmd, none), w)
      if wait then
        let w := w.emit (Event.wait cmd)
        match pr.waitErr with
        | some err => ((some cmd, some err), w)
        | none => fin w
      else fin w

/-- `strings.Index(s, substr)`: position of the first instance of `substr` in
`s`; `none` stands for the result `-1`. -/
def Index : List Char → List Char → Option Nat
  | [], substr => if substr = [] then some 0 else none
  | c :: t, substr =>
    if substr.isPrefixOf (c :: t) then some 0
    else (Index t substr).map (fun i => i + 1)

/-- The counting loop of `strings.Count` for a non-empty `substr`:
`for { i := Index(s, substr); if i == -1 { return n }; n++; s = s[i+len(substr):] }`. -/
def countLoop (s substr : List Char) (hs : substr ≠ []) : Nat :=
  match h : Index s substr with
  | none => 0
  | some i => 1 + countLoop (s.drop (i + substr.length)) substr hs
termination_by s.length
decreasing_by
  have h1 : s ≠ [] := by
    intro hn
    rw [hn] at h
    simp [Index, hs] at h
  have h2 : 0 < s.length := List.length_pos.mpr h1
  have h3 : 0 < substr.length := List.length_pos.mpr hs
  rw [List.length_drop]
  omega

/-- `strings.Count(s, substr)`: number of non-overlapping instances of `substr`
in `s`; for an empty `substr`, one more than the number of characters of `s`.
The source counts a one-byte `substr` with a dedicated routine, whose result is
that of the loop. -/
def Count (s substr : List Char) : Nat :=
  if hs : substr = [] then s.length + 1
  else countLoop s substr hs

/-- `strings.explode(s, n)`: `s` split into its characters, at most `n` pieces. -/
def explode (s : List Char) (n : Int) : List (List Char) :=
  let l : Int := s.length
  let n := if n < 0 ∨ n > l then l else n
  if n > 0 then (s.take (n.toNat - 1)).map (fun c => [c]) ++ [s.drop (n.toNat - 1)]
  else []

/-- The loop of `strings.genSplit`, `k` being the number of iterations left
(`n - i` in the source):
`for i < n { m := Index(s, sep); if m < 0 { break }; a[i] = s[:m+sepSave];
s = s[m+len(sep):]; i++ }; a[i] = s`. -/
def genSplitLoop (sep : List Char) (sepSave : Nat) : Nat → List Char → List (List Char)
  | 0, s => [s]
  | k + 1, s =>
    match Index s sep with
    | none => [s]
    | some m => s.take (m + sepSave) :: genSplitLoop sep sepSave k (s.drop (m + sep.length))

/-- `strings.genSplit(s, sep, sepSave, n)`. -/
def genSplit (s sep : List Char) (sepSave : Nat) (n : Int) : List (List Char) :=
  if n = 0 then []
  else if sep = [] then explode s n
  else
    let n : Int := if n < 0 then (Count s sep : Int) + 1 else n
    let n : Int := if n > (s.length : Int) + 1 then (s.length : Int) + 1 else n
    genSplitLoop sep sepSave (n - 1).toNat s

/-- `strings.SplitAfter(s, sep)`, that is `genSplit(s, sep, len(sep), -1)`. -/
def SplitAfter (s sep : String) : List String :=
  (genSplit s.data sep.data sep.length (-1)).map String.mk

/-- `unicode.IsSpace`. -/
def isSpace (c : Char) : Bool :=
  decide (c.toNat ∈ [0x09, 0x0A, 0x0B, 0x0C, 0x0D, 0x20, 0x85, 0xA0, 0x1680,
    0x2028, 0x2029, 0x202F, 0x205F, 0x3000]) || (decide (0x2000 ≤ c.toNat) && decide (c.toNat ≤ 0x200A))

/-- `strings.TrimSpace(s)`. -/
def TrimSpace (s : String) : String :=
  String.mk ((s.data.dropWhile isSpace).reverse.dropWhile isSpace).reverse

/-- `os.Stat(path)`: the mode of the entry, or a `*fs.PathError`. -/
def Stat (fs : FileSystem) (path : String) : Except GoError FileMode :=
  match fs.lookup path with
  | Except.error errno => Except.error (GoError.pathError "stat" path errno)
  | Except.ok mode => Except.ok mode

/-- `fs.FileMode.IsRegular`. -/
def FileMode.IsRegular (m : FileMode) : Bool :=
  match m with
  | FileMode.regular => true
  | _ => false

/-! ## The client -/

/-- Message of the run-time panic raised by indexing a slice of length `len` at `i`. -/
def indexOutOfRange (i len : Nat) : String :=
  "runtime error: index out of range [" ++ String.mk (Nat.toDigits 10 i) ++ "] with length "
    ++ String.mk (Nat.toDigits 10 len)

/-- `func normalizePodmanPath(path string) (string, error)`. -/
def normalizePodmanPath (fs : FileSystem) (path : String) : String × Option GoError :=
  if path = "podman" then (path, none)
  else
    match Stat fs path with
    | Except.error err => ("", some err)
    | Except.ok pathStat =>
      if pathStat.IsRegular then fs.abs path
      else ("", some (GoError.errorString ("Binary " ++ path ++ " has not been found")))

/-- `func NewPodman(path string, dryRun bool) (*Podman, error)`. -/
def NewPodman (fs : FileSystem) (path : String) (dryRun : Bool) : Option Podman × Option GoError :=
  match normalizePodmanPath fs path with
  | (_, some err) => (none, some err)
  | (path, none) => (some { path := path, dryRun := dryRun }, none)

/-- `func NewPodmanWithDefaults() (*Podman, error)`. -/
def NewPodmanWithDefaults (fs : FileSystem) : Option Podman × Option GoError :=
  match normalizePodmanPath fs "podman" with
  | (_, some err) => (none, some err)
  | (path, none) => (some { path := path, dryRun := false }, none)

/-- `func (p *Podman) GetVersion() (string, error)`.  Indexing the slice returned
by `strings.SplitAfter` at 1 aborts with a run-time panic when the slice has a
single element. -/
def GetVersion (p : Podman) (w : World) : Outcome (String × Option GoError) × World :=
  match Output p ["--version"] w with
  | ((_, some err), w) => (Outcome.ret ("", some err), w)
  | ((output, none), w) =>
    let parts := SplitAfter output "podman version "
    match parts.get? 1 with
    | some v => (Outcome.ret (v, none), w)
    | none => (Outcome.panic (indexOutOfRange 1 parts.length), w)

/-- `func (p *Podman) PodCreate(pod *PodmanPod) error`. -/
def PodCreate (p : Podman) (pod : PodmanPod) (w : World) : Option GoError × World :=
  let r := Run p ["pod", "create", "--name=" ++ pod.Name, "--share=" ++ pod.Share] true 0 w
  (r.1.2, r.2)

/-- `func (p *Podman) PodRemove(pod *PodmanPod) error`. -/
def PodRemove (p : Podman) (pod : PodmanPod) (w : World) : Option GoError × World :=
  let r := Run p ["pod", "rm", pod.Name] true 0 w
  (r.1.2, r.2)

/-- `func (p *Podman) ImageGetId(image *PodmanImage) (string, error)`. -/
def ImageGetId (p : Podman) (image : PodmanImage) (w : World) : (String × Option GoError) × World :=
  let r := Output p ["inspect", "-t", "image", "-f", "\x7b\x7b.Id\x7d\x7d", image.Name] w
  ((TrimSpace r.1.1, r.1.2), r.2)

/-- `func (p *Podman) ImagePull(image *PodmanImage) error`. -/
def ImagePull (p : Podman) (image : PodmanImage) (w : World) : Option GoError × World :=
  let r := Run p ["pull", image.Name] true 0 w
  (r.1.2, r.2)

/-- `func (p *Podman) ImagePush(image *PodmanImage) error`. -/
def ImagePush (p : Podman) (image : PodmanImage) (w : World) : Option GoError × World :=
  let r := Run p ["push", image.Name] true 0 w
  (r.1.2, r.2)

/-- `func (p *Podman) ContainerStop(container *PodmanContainer, args []string) error`. -/
def ContainerStop (p : Podman) (container : PodmanContainer) (args : List String) (w : World) :
    Option GoError × World :=
  let cmd := ["stop"]
  let cmd := cmd ++ args
  let cmd := cmd ++ [container.Name]
  let r := Run p cmd true 0 w
  (r.1.2, r.2)

/-- `func (p *Podman) Logs(container *PodmanContainer, follow bool, timestamps bool, tail string) error`. -/
def Logs (p : Podman) (container : PodmanContainer) (follow : Bool) (timestamps : Bool)
    (tail : String) (w : World) : Option GoError × World :=
  let cmd := ["logs"]
  let cmd := if follow then cmd ++ ["-f"] else cmd
  let cmd := if timestamps then cmd ++ ["-t"] else cmd
  let cmd := if tail ≠ "" ∧ tail ≠ "all" then cmd ++ ["--tail", tail] else cmd
  let cmd := cmd ++ [container.Name]
  let r := Run p cmd true 0 w
  (r.1.2, r.2)

/-- `func (p *Podman) Ps(all bool, quiet bool, projectName string) error`. -/
def Ps (p : Podman) (all : Bool) (quiet : Bool) (projectName : String) (w : World) :
    Option GoError × World :=
  let cmd := ["ps"]
  let cmd := if all then cmd ++ ["-a"] else cmd
  let cmd := if quiet then cmd ++ ["--format", "\x7b\x7b.ID\x7d\x7d"] else cmd
  let cmd := if projectName ≠ "" then
    cmd ++ ["--filter", "label=io.podman.compose.project=" ++ projectName] else cmd
  let r := Run p cmd true 0 w
  (r.1.2, r.2)

/-- Processes started so far, oldest first. -/
def launches (w : World) : List Cmd :=
  w.trace.filterMap (fun e => match e with
    | Event.start cmd => some cmd
    | _ => none)

/-- Lines handed to `fmt.Println` so far, oldest first. -/
def printed (w : World) : List String :=
  w.trace.filterMap (fun e => match e with
    | Event.println s => some s
    | _ => none)

/-- A world with an empty trace in which every command starts, writes `out` to
its standard output and exits with status 0. -/
def quietWorld (out : String) : World :=
  { trace := [], procs := fun _ _ => { startErr := none, stdout := out, waitErr := none } }

/-- `strings.Contains(s, substr)`, that is `Index(s, substr) >= 0`. -/
def Contains (s substr : String) : Bool :=
  (Index s.data substr.data).isSome

/-- The newline-terminated lines of a stream, each with its newline, `cur` being
the characters of the current line read so far. -/
def terminatedLines : List Char → List Char → List String
  | _, [] => []
  | cur, c :: cs =>
    if c = Char.ofNat 10 then String.mk (cur ++ [c]) :: terminatedLines [] cs
    else terminatedLines (cur ++ [c]) cs

/-- The command line in the words of the specification: the binary path followed
by each argument, joined with a single space. -/
def commandLine (path : String) (args : List String) : String :=
  Join (path :: args) " "

/-- A filesystem that holds the directory `/usr/bin` and nothing else. -/
def fsUsrBin : FileSystem :=
  { lookup := fun path => if path = "/usr/bin" then Except.ok FileMode.dir else Except.error ENOENT
    abs := fun path => (path, none) }

/-! ## Lemmas on the relay loop -/

theorem terminatedLines_readString (cur s : List Char) :
    terminatedLines cur s =
      if (readString (Char.ofNat 10) s).2.2 = false then
        String.mk (cur ++ (readString (Char.ofNat 10) s).1) ::
          terminatedLines [] (readString (Char.ofNat 10) s).2.1
      else [] := by
  induction s generalizing cur with
  | nil => simp [terminatedLines, readString]
  | cons c cs ih =>
    by_cases h : c = Char.ofNat 10
    · simp [terminatedLines, readString, h]
    · rw [terminatedLines, if_neg h, ih (cur ++ [c])]
      simp [readString, h]

theorem relayLoop_eq (s : List Char) (w : World) :
    relayLoop s w =
      { w with trace := w.trace ++ (terminatedLines [] s).map Event.println } := by
  induction s, w using relayLoop.induct with
  | case1 stream w line rest h ih =>
    rw [relayLoop]
    split
    · rename_i line2 rest2 h2
      rw [h] at h2
      cases h2
      have e := terminatedLines_readString [] stream
      rw [h] at e
      rw [ih, e]
      simp [Println, World.emit]
    · rename_i h2
      rw [h] at h2
      cases h2
  | case2 stream w a b h =>
    rw [relayLoop]
    split
    · rename_i line2 rest2 h2
      rw [h] at h2
      cases h2
    · have e := terminatedLines_readString [] stream
      rw [h] at e
      rw [e]
      simp

theorem Run_dry (p : Podman) (hdry : p.dryRun = true) (args : List String) (wait : Bool)
    (sleep : Int) (w : World) :
    Run p args wait sleep w =
      ((none, none), Println ("podman cmd: " ++ p.path ++ " " ++ Join args " ") w) := by
  simp [Run, hdry]

theorem launches_Println (s : String) (w : World) : launches (Println s w) = launches w := by
  simp [launches, Println, World.emit]

/-! ## Lemmas on splitting -/

theorem Index_eq_none_iff (s substr : List Char) :
    Index s substr = none ↔ ¬ substr <:+: s := by
  induction s with
  | nil =>
    by_cases h : substr = []
    · simp [Index, h]
    · simp [Index, h]
  | cons c t ih =>
    rw [Index, List.infix_cons_iff]
    by_cases h : substr.isPrefixOf (c :: t) = true
    · rw [if_pos h]
      have hp : substr <+: c :: t := List.isPrefixOf_iff_prefix.mp h
      simp [hp]
    · rw [if_neg h]
      have hp : ¬ substr <+: c :: t := fun hp => h (List.isPrefixOf_iff_prefix.mpr hp)
      simp [hp, ih]

theorem Index_append_self (s sep : List Char) (hs : sep ≠ []) : Index (sep ++ s) sep = some 0 := by
  cases hsep : sep ++ s with
  | nil => simp at hsep; exact absurd hsep.1 hs
  | cons c t =>
    rw [Index, if_pos]
    rw [← hsep]
    exact List.isPrefixOf_iff_prefix.mpr (List.prefix_append sep s)

theorem countLoop_none (s sep : List Char) (hs : sep ≠ []) (h : Index s sep = none) :
    countLoop s sep hs = 0 := by
  rw [countLoop]
  split
  · rfl
  · rename_i i hi
    rw [h] at hi
    cases hi

theorem countLoop_pos (s sep : List Char) (hs : sep ≠ []) (i : Nat) (h : Index s sep = some i) :
    0 < countLoop s sep hs := by
  rw [countLoop]
  split
  · rename_i hi
    rw [h] at hi
    cases hi
  · omega

theorem genSplitLoop_none (sep : List Char) (sepSave k : Nat) (s : List Char)
    (h : Index s sep = none) : genSplitLoop sep sepSave k s = [s] := by
  cases k with
  | zero => rfl
  | succ k => simp [genSplitLoop, h]

/-- Without an instance of `sep` in `s`, `SplitAfter` returns the single element `s`. -/
theorem SplitAfter_absent (s sep : String) (hs : sep.data ≠ [])
    (h : Index s.data sep.data = none) : SplitAfter s sep = [s] := by
  unfold SplitAfter genSplit
  have hc : Count s.data sep.data = 0 := by
    unfold Count
    rw [dif_neg hs]
    exact countLoop_none s.data sep.data hs h
  simp [hs, hc, genSplitLoop]

/-- With `sep` in front of a string `s` that holds no instance of it, `SplitAfter`
returns `sep` and `s`. -/
theorem SplitAfter_leading (s sep : String) (hs : sep.data ≠ [])
    (h : Index s.data sep.data = none) : SplitAfter (sep ++ s) sep = [sep, s] := by
  unfold SplitAfter genSplit
  have hi : Index (sep ++ s).data sep.data = some 0 := by
    rw [String.data_append]
    exact Index_append_self s.data sep.data hs
  have hc : 0 < Count (sep ++ s).data sep.data := by
    unfold Count
    rw [dif_neg hs]
    exact countLoop_pos _ _ hs 0 hi
  have hl : 0 < (sep ++ s).data.length := by
    rw [String.data_append, List.length_append]
    have := List.length_pos.mpr hs
    omega
  obtain ⟨k, hk⟩ : ∃ k, ((if ((if (-1 : Int) < 0 then (Count (sep ++ s).data sep.data : Int) + 1
      else -1) > ((sep ++ s).data.length : Int) + 1) then ((sep ++ s).data.length : Int) + 1
      else (if (-1 : Int) < 0 then (Count (sep ++ s).data sep.data : Int) + 1 else -1)) - 1).toNat
      = k + 1 := by
    refine ⟨_, (Nat.succ_pred_eq_of_pos ?_).symm⟩
    split_ifs <;> omega
  simp only [hs, if_false, Int.reduceNeg, Int.neg_eq_zero, one_ne_zero]
  rw [hk]
  simp only [genSplitLoop, hi]
  have hd : List.drop (0 + sep.data.length) (sep ++ s).data = s.data := by
    rw [String.data_append]; simp
  have ht : List.take (0 + sep.length) (sep ++ s).data = sep.data := by
    change List.take (0 + sep.data.length) (sep ++ s).data = sep.data
    rw [String.data_append]; simp
  rw [hd, ht, genSplitLoop_none sep.data sep.length k s.data h]
  rfl

/-! ## Lemmas on `Run` and `Output` -/

theorem launches_append_println (t : List Event) (ls : List String) :
    List.filterMap (fun e => match e with
      | Event.start cmd => some cmd
      | _ => none) (t ++ ls.map Event.println) =
    List.filterMap (fun e => match e with
      | Event.start cmd => some cmd
      | _ => none) t := by
  induction ls generalizing t with
  | nil => simp
  | cons l ls ih =>
    have := ih (t ++ [Event.println l])
    simp only [List.map_cons, List.append_assoc, List.singleton_append] at this ⊢
    rw [this]
    simp

/-- A client that is not in dry-run starts exactly one process per `Run`, built
from its path and the argument vector handed to `Run`. -/
theorem launches_Run_live (path : String) (args : List String) (wait : Bool) (sleep : Int)
    (w : World) :
    launches (Run { path := path, dryRun := false } args wait sleep w).2 =
      launches w ++ [{ path := path, args := args }] := by
  have key : ∀ ls : List String, List.filterMap (fun e => match e with
      | Event.start cmd => some cmd
      | _ => none) (w.trace ++ Event.println ("podman cmd: " ++ path ++ " " ++ Join args " ") ::
        Event.start { path := path, args := args } :: ls.map Event.println) =
      launches w ++ [{ path := path, args := args }] := by
    intro ls
    have := launches_append_println (w.trace ++ [Event.println ("podman cmd: " ++ path ++ " "
      ++ Join args " "), Event.start { path := path, args := args }]) ls
    simp only [List.append_assoc, List.cons_append, List.nil_append] at this
    rw [this]
    simp [launches]
  unfold Run
  simp only [Bool.false_eq_true, if_false, Println, World.emit, Command]
  cases hst : (w.procs path args).startErr with
  | some err => simp [launches]
  | none =>
    simp only [relayLoop_eq]
    have k := key (terminatedLines [] (w.procs path args).stdout.data)
    cases wait <;> cases hw : (w.procs path args).waitErr <;> by_cases hsl : sleep = 0 <;>
      simp [launches, hsl] at k ⊢

/-- Every `Run` first writes the command line, whatever happens next. -/
theorem Run_trace_head (p : Podman) (args : List String) (wait : Bool) (sleep : Int) (w : World) :
    ∃ rest, (Run p args wait sleep w).2.trace =
      w.trace ++ Event.println ("podman cmd: " ++ p.path ++ " " ++ Join args " ") :: rest := by
  unfold Run
  simp only [Println, World.emit, Command]
  cases p.dryRun with
  | true => exact ⟨[], by simp⟩
  | false =>
    simp only [Bool.false_eq_true, if_false]
    cases hst : (w.procs p.path args).startErr with
    | some err => simp
    | none =>
      simp only [relayLoop_eq]
      cases wait <;> cases hw : (w.procs p.path args).waitErr <;> by_cases hsl : sleep = 0 <;>
        simp [hsl]

/-- Every `Output` first writes the command line, whatever happens next. -/
theorem Output_trace_head (p : Podman) (args : List String) (w : World) :
    ∃ rest, (Output p args w).2.trace =
      w.trace ++ Event.println ("podman cmd: " ++ p.path ++ " " ++ Join args " ") :: rest := by
  unfold Output
  simp only [Println, World.emit, Command]
  cases hst : (w.procs p.path args).startErr with
  | some err => simp
  | none =>
    cases hw : (w.procs p.path args).waitErr <;> simp

/-- `Output` starts the process whatever the dry-run flag is. -/
theorem launches_Output (p : Podman) (args : List String) (w : World) :
    launches (Output p args w).2 = launches w ++ [{ path := p.path, args := args }] := by
  unfold Output
  simp only [Println, World.emit, Command]
  cases hst : (w.procs p.path args).startErr with
  | some err => simp [launches]
  | none =>
    cases hw : (w.procs p.path args).waitErr <;> simp [launches]

/-! ## Dry-run -/

/-- C1: on a client whose dry-run flag is set, `Run` with any arguments, wait flag
and sleep returns a nil handle and a nil error, writes the command line and
starts no process; hence `PodCreate`, `PodRemove`, `ImagePull`, `ImagePush`,
`ContainerStop`, `Logs` and `Ps` return a nil error and start no process. -/
theorem dryRun_streamed_no_launch (p : Podman) (hdry : p.dryRun = true) (w : World) :
    (∀ args wait sleep, (Run p args wait sleep w).1 = (none, none) ∧
      (Run p args wait sleep w).2.trace =
        w.trace ++ [Event.println ("podman cmd: " ++ p.path ++ " " ++ Join args " ")] ∧
      launches (Run p args wait sleep w).2 = launches w) ∧
    (∀ pod, (PodCreate p pod w).1 = none ∧ launches (PodCreate p pod w).2 = launches w) ∧
    (∀ pod, (PodRemove p pod w).1 = none ∧ launches (PodRemove p pod w).2 = launches w) ∧
    (∀ image, (ImagePull p image w).1 = none ∧ launches (ImagePull p image w).2 = launches w) ∧
    (∀ image, (ImagePush p image w).1 = none ∧ launches (ImagePush p image w).2 = launches w) ∧
    (∀ container args, (ContainerStop p container args w).1 = none ∧
      launches (ContainerStop p container args w).2 = launches w) ∧
    (∀ container follow timestamps tail, (Logs p container follow timestamps tail w).1 = none ∧
      launches (Logs p container follow timestamps tail w).2 = launches w) ∧
    (∀ all quiet projectName, (Ps p all quiet projectName w).1 = none ∧
      launches (Ps p all quiet projectName w).2 = launches w) := by
  refine ⟨?_, ?_, ?_, ?_, ?_, ?_, ?_, ?_⟩
  · intro args wait sleep
    rw [Run_dry p hdry]
    exact ⟨rfl, rfl, launches_Println _ w⟩
  · intro pod
    simp [PodCreate, Run_dry p hdry, launches_Println]
  · intro pod
    simp [PodRemove, Run_dry p hdry, launches_Println]
  · intro image
    simp [ImagePull, Run_dry p hdry, launches_Println]
  · intro image
    simp [ImagePush, Run_dry p hdry, launches_Println]
  · intro container args
    simp [ContainerStop, Run_dry p hdry, launches_Println]
  · intro container follow timestamps tail
    simp [Logs, Run_dry p hdry, launches_Println]
  · intro all quiet projectName
    simp [Ps, Run_dry p hdry, launches_Println]

theorem dryRun_streamed_no_launch_witness :
    ({ path := "podman", dryRun := true } : Podman).dryRun = true ∧
    (Run { path := "podman", dryRun := true } ["pull", "alpine"] true 0 (quietWorld "x")).1
      = (none, none) ∧
    launches (Run { path := "podman", dryRun := true } ["pull", "alpine"] true 0
      (quietWorld "x")).2 = launches (quietWorld "x") ∧
    (PodCreate { path := "podman", dryRun := true } { Name := "demo", Share := "net" }
      (quietWorld "x")).1 = none :=
  ⟨rfl,
   ((dryRun_streamed_no_launch { path := "podman", dryRun := true } rfl (quietWorld "x")).1
      ["pull", "alpine"] true 0).1,
   ((dryRun_streamed_no_launch { path := "podman", dryRun := true } rfl (quietWorld "x")).1
      ["pull", "alpine"] true 0).2.2,
   ((dryRun_streamed_no_launch { path := "podman", dryRun := true } rfl (quietWorld "x")).2.1
      { Name := "demo", Share := "net" }).1⟩

/-- C2: the buffered operations do not look at the dry-run flag.  On a client in
dry-run, `Output` starts the process built from the path and the arguments, and
so do `GetVersion` and `ImageGetId`, here in a world with no process started
before. -/
theorem buffered_ignores_dryRun :
    (∀ path args w, launches (Output { path := path, dryRun := true } args w).2 =
      launches w ++ [{ path := path, args := args }]) ∧
    launches (GetVersion { path := "podman", dryRun := true }
      (quietWorld "podman version 4.3.1\n")).2 = [{ path := "podman", args := ["--version"] }] ∧
    launches (ImageGetId { path := "podman", dryRun := true } { Name := "alpine" }
      (quietWorld "sha256:0a\n")).2 =
      [{ path := "podman", args := ["inspect", "-t", "image", "-f", "\x7b\x7b.Id\x7d\x7d", "alpine"] }] := by
  refine ⟨fun path args w => launches_Output _ args w, ?_, ?_⟩
  · simp [GetVersion, Output, quietWorld, Println, World.emit, Command, launches, SplitAfter,
      genSplit, Count, countLoop, Index, genSplitLoop]
  · decide

/-! ## Version parsing -/

/-- When the `--version` command succeeds with an output that holds no instance
of the fixed text, `GetVersion` aborts with an index-out-of-range panic. -/
theorem GetVersion_absent (p : Podman) (w : World) (out : String)
    (hproc : w.procs p.path ["--version"] = { startErr := none, stdout := out, waitErr := none })
    (habs : Contains out "podman version " = false) :
    (GetVersion p w).1 = Outcome.panic (indexOutOfRange 1 1) := by
  have hi : Index out.data "podman version ".data = none := by
    simpa [Contains] using habs
  have hsp := SplitAfter_absent out "podman version " (by decide) hi
  simp [GetVersion, Output, Println, World.emit, hproc, hsp]

/-- C3: with the output `4.3.1` and a newline, which lacks the text
`podman version `, `GetVersion` neither returns an error value nor a version:
it aborts with the run-time panic of an index out of range. -/
theorem GetVersion_missing_text_panics :
    (GetVersion { path := "podman", dryRun := false } (quietWorld "4.3.1\n")).1 =
      Outcome.panic "runtime error: index out of range [1] with length 1" ∧
    ∀ r, (GetVersion { path := "podman", dryRun := false } (quietWorld "4.3.1\n")).1 ≠
      Outcome.ret r := by
  have h := GetVersion_absent { path := "podman", dryRun := false } (quietWorld "4.3.1\n")
    "4.3.1\n" rfl (by decide)
  refine ⟨?_, ?_⟩
  · rw [h]; decide
  · intro r hr
    rw [h] at hr
    cases hr

/-- C4 as stated fails: for the suffix `x podman version y` the output
`podman version x podman version y` gives `x podman version `, not the suffix. -/
theorem GetVersion_repeated_text :
    (GetVersion { path := "podman", dryRun := false }
      (quietWorld ("podman version " ++ "x podman version y"))).1 =
      Outcome.ret ("x podman version ", none) ∧
    (GetVersion { path := "podman", dryRun := false }
      (quietWorld ("podman version " ++ "x podman version y"))).1 ≠
      Outcome.ret ("x podman version y", none) := by
  have h : (GetVersion { path := "podman", dryRun := false }
      (quietWorld ("podman version " ++ "x podman version y"))).1 =
      Outcome.ret ("x podman version ", none) := by
    simp [GetVersion, Output, quietWorld, Println, World.emit, SplitAfter, genSplit, Count,
      countLoop, Index, genSplitLoop]
    decide
  refine ⟨h, ?_⟩
  rw [h]
  decide

/-- C4, amended: for every suffix `s` that holds no instance of `podman version `,
when the `--version` command succeeds with the output `podman version ` followed
by `s`, `GetVersion` returns exactly `s` and a nil error, nothing trimmed. -/
theorem GetVersion_suffix (p : Podman) (w : World) (s : String)
    (hproc : w.procs p.path ["--version"] =
      { startErr := none, stdout := "podman version " ++ s, waitErr := none })
    (habs : Contains s "podman version " = false) :
    (GetVersion p w).1 = Outcome.ret (s, none) := by
  have hi : Index s.data "podman version ".data = none := by
    simpa [Contains] using habs
  have hsp := SplitAfter_leading s "podman version " (by decide) hi
  simp [GetVersion, Output, Println, World.emit, hproc, hsp]

theorem GetVersion_suffix_witness :
    (GetVersion { path := "podman", dryRun := false } (quietWorld "podman version 4.3.1\n")).1 =
      Outcome.ret ("4.3.1\n", none) :=
  GetVersion_suffix { path := "podman", dryRun := false } (quietWorld "podman version 4.3.1\n")
    "4.3.1\n" (by decide) (by decide)

/-! ## Argument vectors -/

/-- C5: `Logs` hands to `Run`, with wait set and no sleep, exactly the vector
`logs`, then `-f` iff follow, then `-t` iff timestamps, then the pair `--tail`,
tail iff tail is neither empty nor `all`, then the container name; a client not
in dry-run starts the process with that vector; with follow set, timestamps
unset and tail `10` the vector is `logs -f --tail 10` and the name. -/
theorem Logs_argument_vector (p : Podman) (container : PodmanContainer) (follow : Bool)
    (timestamps : Bool) (tail : String) (w : World) :
    (Logs p container follow timestamps tail w).1 =
      (Run p (["logs"] ++ (if follow then ["-f"] else []) ++ (if timestamps then ["-t"] else [])
        ++ (if tail ≠ "" ∧ tail ≠ "all" then ["--tail", tail] else []) ++ [container.Name])
        true 0 w).1.2 ∧
    (Logs p container follow timestamps tail w).2 =
      (Run p (["logs"] ++ (if follow then ["-f"] else []) ++ (if timestamps then ["-t"] else [])
        ++ (if tail ≠ "" ∧ tail ≠ "all" then ["--tail", tail] else []) ++ [container.Name])
        true 0 w).2 ∧
    launches (Logs { path := p.path, dryRun := false } container follow timestamps tail w).2 =
      launches w ++ [{ path := p.path, args := ["logs"] ++ (if follow then ["-f"] else [])
        ++ (if timestamps then ["-t"] else [])
        ++ (if tail ≠ "" ∧ tail ≠ "all" then ["--tail", tail] else []) ++ [container.Name] }] ∧
    launches (Logs { path := p.path, dryRun := false } container true false "10" w).2 =
      launches w ++ [{ path := p.path, args := ["logs", "-f", "--tail", "10", container.Name] }] ∧
    launches (Logs { path := p.path, dryRun := false } container false false "all" w).2 =
      launches w ++ [{ path := p.path, args := ["logs", container.Name] }] := by
  have hvec : ∀ (f t : Bool) (tl : String),
      (let cmd := ["logs"]
       let cmd := if f then cmd ++ ["-f"] else cmd
       let cmd := if t then cmd ++ ["-t"] else cmd
       let cmd := if tl ≠ "" ∧ tl ≠ "all" then cmd ++ ["--tail", tl] else cmd
       cmd ++ [container.Name]) =
      ["logs"] ++ (if f then ["-f"] else []) ++ (if t then ["-t"] else [])
        ++ (if tl ≠ "" ∧ tl ≠ "all" then ["--tail", tl] else []) ++ [container.Name] := by
    intro f t tl
    cases f <;> cases t <;> by_cases h : tl ≠ "" ∧ tl ≠ "all" <;> simp [h]
  have hL : ∀ (q : Podman) (f t : Bool) (tl : String), Logs q container f t tl w =
      ((Run q (["logs"] ++ (if f then ["-f"] else []) ++ (if t then ["-t"] else [])
        ++ (if tl ≠ "" ∧ tl ≠ "all" then ["--tail", tl] else []) ++ [container.Name])
        true 0 w).1.2,
       (Run q (["logs"] ++ (if f then ["-f"] else []) ++ (if t then ["-t"] else [])
        ++ (if tl ≠ "" ∧ tl ≠ "all" then ["--tail", tl] else []) ++ [container.Name])
        true 0 w).2) := by
    intro q f t tl
    have := hvec f t tl
    simp only at this
    simp only [Logs, this]
  refine ⟨?_, ?_, ?_, ?_, ?_⟩
  · rw [hL]
  · rw [hL]
  · rw [hL, launches_Run_live]
  · rw [hL, launches_Run_live]
    simp
  · rw [hL, launches_Run_live]
    simp

/-- C6: `ContainerStop` hands to `Run`, with wait set and no sleep, exactly the
vector `stop`, the extra arguments in their order, the container name; a client
not in dry-run starts the process with that vector; the extra arguments `-t`,
`5` and the name `web` give `stop -t 5 web`. -/
theorem ContainerStop_argument_vector (p : Podman) (container : PodmanContainer)
    (args : List String) (w : World) :
    (ContainerStop p container args w).1 =
      (Run p (["stop"] ++ args ++ [container.Name]) true 0 w).1.2 ∧
    (ContainerStop p container args w).2 =
      (Run p (["stop"] ++ args ++ [container.Name]) true 0 w).2 ∧
    launches (ContainerStop { path := p.path, dryRun := false } container args w).2 =
      launches w ++ [{ path := p.path, args := ["stop"] ++ args ++ [container.Name] }] ∧
    launches (ContainerStop { path := p.path, dryRun := false }
      { Name := "web", Service := none } ["-t", "5"] w).2 =
      launches w ++ [{ path := p.path, args := ["stop", "-t", "5", "web"] }] := by
  refine ⟨rfl, rfl, ?_, ?_⟩
  · simp only [ContainerStop]
    rw [launches_Run_live]
  · simp only [ContainerStop]
    rw [launches_Run_live]
    simp

/-! ## Relay of the standard output -/

/-- The relay loop hands to `fmt.Println` the newline-terminated lines of the
stream, in order, and nothing else: characters after the last newline are read
and never written. -/
theorem relayLoop_printed (s : List Char) (w : World) :
    printed (relayLoop s w) = printed w ++ terminatedLines [] s := by
  rw [relayLoop_eq]
  simp only [printed, List.filterMap_append]
  congr 1
  induction terminatedLines [] s with
  | nil => rfl
  | cons l ls ih => simp [ih]

/-- C7: a process that writes the line `a`, a newline and the line `b` with no
final newline has only `a` relayed: `Run` writes the command line and `a`, and
the line `b` never reaches the log sink. -/
theorem Run_drops_unterminated_line :
    printed (Run { path := "podman", dryRun := false } ["logs", "web"] true 0
      (quietWorld "a\nb")).2 = ["podman cmd: podman logs web", "a\n"] ∧
    (Run { path := "podman", dryRun := false } ["logs", "web"] true 0
      (quietWorld "a\nb")).1 = (some { path := "podman", args := ["logs", "web"] }, none) ∧
    printed (Run { path := "podman", dryRun := false } ["logs", "web"] true 0
      (quietWorld "a\nb\n")).2 = ["podman cmd: podman logs web", "a\n", "b\n"] := by
  refine ⟨?_, ?_, ?_⟩
  · simp [Run, quietWorld, Println, World.emit, Command, relayLoop_eq, terminatedLines, printed]
    decide
  · simp [Run, quietWorld, Println, World.emit, Command]
  · simp [Run, quietWorld, Println, World.emit, Command, relayLoop_eq, terminatedLines, printed]
    decide

/-! ## The logged command line -/

/-- C8 as stated fails at the empty argument vector: for the path `podman` and no
argument, `Run` and `Output` write `podman cmd: podman ` with a trailing space,
which is neither the path followed by the arguments joined with a single space
nor that text after the label. -/
theorem logged_line_empty_vector :
    (Run { path := "podman", dryRun := false } [] true 0 (quietWorld "")).2.trace.head? =
      some (Event.println "podman cmd: podman ") ∧
    (Output { path := "podman", dryRun := false } [] (quietWorld "")).2.trace.head? =
      some (Event.println "podman cmd: podman ") ∧
    "podman cmd: podman " ≠ commandLine "podman" [] ∧
    "podman cmd: podman " ≠ "podman cmd: " ++ commandLine "podman" [] := by
  refine ⟨?_, ?_, ?_, ?_⟩
  · simp [Run, quietWorld, Println, World.emit, Join, relayLoop_eq, terminatedLines]
  · decide
  · decide
  · decide

/-- C8, amended: for every path and every non-empty argument vector, the first
thing `Output` and `Run` write is the label `podman cmd: ` followed by the path
and each argument joined with a single space, in order; for the empty vector it
is the label, the path and one space.  The line comes before every other effect
of the call, process start included, with or without dry-run, and depends on the
path and the arguments alone. -/
theorem logged_command_line (p : Podman) (a : String) (rest : List String) (wait : Bool)
    (sleep : Int) (w : World) :
    (∃ evs, (Output p (a :: rest) w).2.trace =
      w.trace ++ Event.println ("podman cmd: " ++ commandLine p.path (a :: rest)) :: evs) ∧
    (∃ evs, (Run p (a :: rest) wait sleep w).2.trace =
      w.trace ++ Event.println ("podman cmd: " ++ commandLine p.path (a :: rest)) :: evs) ∧
    (∃ evs, (Output p [] w).2.trace =
      w.trace ++ Event.println ("podman cmd: " ++ p.path ++ " ") :: evs) ∧
    (∃ evs, (Run p [] wait sleep w).2.trace =
      w.trace ++ Event.println ("podman cmd: " ++ p.path ++ " ") :: evs) := by
  have h1 : "podman cmd: " ++ p.path ++ " " ++ Join (a :: rest) " " =
      "podman cmd: " ++ commandLine p.path (a :: rest) := by
    simp [commandLine, Join, String.append_assoc]
  have h2 : "podman cmd: " ++ p.path ++ " " ++ Join [] " " = "podman cmd: " ++ p.path ++ " " := by
    simp [Join]
  refine ⟨?_, ?_, ?_, ?_⟩
  · rw [← h1]; exact Output_trace_head p (a :: rest) w
  · rw [← h1]; exact Run_trace_head p (a :: rest) wait sleep w
  · have := Output_trace_head p [] w
    rw [h2] at this
    exact this
  · have := Run_trace_head p [] wait sleep w
    rw [h2] at this
    exact this

/-! ## Resolution of the binary -/

/-- C9: for a path other than `podman`, when `stat` fails (with `ENOENT` when
the path does not exist), `normalizePodmanPath` returns the empty path and the
error of `os.Stat`, and `NewPodman` returns no client and that error; when the
path exists and is not a regular file (a directory for one), they return the
error built by `errors.New`, of another kind than the error of `os.Stat`, with
the empty path and no client. -/
theorem resolve_failures (fs : FileSystem) (path : String) (dryRun : Bool)
    (hne : path ≠ "podman") :
    (∀ errno, fs.lookup path = Except.error errno →
      normalizePodmanPath fs path = ("", some (GoError.pathError "stat" path errno)) ∧
      NewPodman fs path dryRun = (none, some (GoError.pathError "stat" path errno))) ∧
    (∀ mode, fs.lookup path = Except.ok mode → mode.IsRegular = false →
      normalizePodmanPath fs path =
        ("", some (GoError.errorString ("Binary " ++ path ++ " has not been found"))) ∧
      NewPodman fs path dryRun =
        (none, some (GoError.errorString ("Binary " ++ path ++ " has not been found"))) ∧
      ∀ op q errno, GoError.errorString ("Binary " ++ path ++ " has not been found") ≠
        GoError.pathError op q errno) ∧
    FileMode.dir.IsRegular = false := by
  refine ⟨?_, ?_, rfl⟩
  · intro errno h
    have hn : normalizePodmanPath fs path = ("", some (GoError.pathError "stat" path errno)) := by
      simp [normalizePodmanPath, hne, Stat, h]
    exact ⟨hn, by simp [NewPodman, hn]⟩
  · intro mode h hreg
    have hn : normalizePodmanPath fs path =
        ("", some (GoError.errorString ("Binary " ++ path ++ " has not been found"))) := by
      simp [normalizePodmanPath, hne, Stat, h, hreg]
    exact ⟨hn, by simp [NewPodman, hn], fun op q errno hc => by cases hc⟩

theorem resolve_failures_witness :
    normalizePodmanPath fsUsrBin "/usr/bin/podman" =
      ("", some (GoError.pathError "stat" "/usr/bin/podman" ENOENT)) ∧
    NewPodman fsUsrBin "/usr/bin" false =
      (none, some (GoError.errorString ("Binary " ++ "/usr/bin" ++ " has not been found"))) :=
  ⟨((resolve_failures fsUsrBin "/usr/bin/podman" false (by decide)).1 ENOENT rfl).1,
   ((resolve_failures fsUsrBin "/usr/bin" false (by decide)).2.1 FileMode.dir rfl rfl).2.1⟩

/-- C10: whatever the filesystem holds, `normalizePodmanPath` returns `podman`
unchanged and a nil error, `NewPodman` on `podman` returns a client holding the
path `podman` and the given dry-run flag, and `NewPodmanWithDefaults` returns a
client holding the path `podman` with dry-run unset; none of them fails. -/
theorem resolve_bare_name (fs : FileSystem) (dryRun : Bool) :
    normalizePodmanPath fs "podman" = ("podman", none) ∧
    NewPodman fs "podman" dryRun = (some { path := "podman", dryRun := dryRun }, none) ∧
    NewPodmanWithDefaults fs = (some { path := "podman", dryRun := false }, none) := by
  refine ⟨?_, ?_, ?_⟩
  · simp [normalizePodmanPath]
  · simp [NewPodman, normalizePodmanPath]
  · simp [NewPodmanWithDefaults, normalizePodmanPath]

end PodmanCompose
